import Mathlib

/-!
Verification development for the remote-printer lifecycle engine of
`cups-browsed` (src/utils/cups-browsed.c).

The C source is shallowly embedded: the registry of remote printers is a
`List RemotePrinter`, machine time (`time_t`) is `Int`, C strings are Lean
`String`s, and every call to the local spooler or to a remote printer is
resolved through an explicit oracle structure `Env`.  Fallible C code is
embedded with `Option`: in particular `remove_bad_chars` returns `none`
exactly when the original would read outside its buffer.
-/

namespace CupsBrowsed

/-- ASCII lower-casing of one character, as C `tolower` in the C locale. -/
def lowerChar (c : Char) : Char :=
  if 'A' ≤ c ∧ c ≤ 'Z' then Char.ofNat (c.toNat + 32) else c

/-- Case-insensitive string equality: models `strcasecmp(a, b) == 0`. -/
def ieq (a b : String) : Bool :=
  a.data.map lowerChar == b.data.map lowerChar

/-- The first `n` characters of a string (`strncasecmp` helper). -/
def strTake (s : String) (n : Nat) : String :=
  String.mk (s.data.take n)

/-- The string without its first `n` characters. -/
def strDrop (s : String) (n : Nat) : String :=
  String.mk (s.data.drop n)

/-- Prefix test on character lists (helper for the `strcasestr` model). -/
def hasPre (needle hay : List Char) : Bool :=
  match needle, hay with
  | [], _ => true
  | _ :: _, [] => false
  | a :: as, b :: bs => a == b && hasPre as bs

/-- Substring search on character lists (helper for the `strcasestr` model). -/
def subSearch (needle : List Char) : List Char → Bool
  | [] => needle.isEmpty
  | c :: rest => hasPre needle (c :: rest) || subSearch needle rest

/-- Models `strcasestr(hay, needle) != NULL`: case-insensitive substring
containment. -/
def strcasestrB (hay needle : String) : Bool :=
  subSearch (needle.data.map lowerChar) (hay.data.map lowerChar)

/-! ### Timeout constants (`#define`s at the top of cups-browsed.c) -/

def TIMEOUT_IMMEDIATELY : Int := -1

def TIMEOUT_CONFIRM : Int := 10

def TIMEOUT_RETRY : Int := 10

def TIMEOUT_REMOVE : Int := -1

/-- Default value of the `BrowseTimeout` configuration variable
(`static unsigned int BrowseTimeout = 300;`). -/
def BrowseTimeout : Int := 300

/-! ### The sanitizer `remove_bad_chars`

`remove_bad_chars(str, mode)` keeps letters, digits and `_` (in mode 1 also
`/`, `.`, `,`), replaces each run of other characters by a single `-` via the
`havedash` flag, then cuts trailing and leading dashes.  The trailing cut is
`while (str[strlen(str)-1] == '-')`, which evaluates `str[-1]` once the string
has become empty; that out-of-bounds access is embedded as `none`. -/

/-- Characters kept in every mode: `A-Z`, `a-z`, `0-9`, `_`. -/
def baseAllowed (c : Char) : Bool :=
  decide (('A' ≤ c ∧ c ≤ 'Z') ∨ ('a' ≤ c ∧ c ≤ 'z') ∨ ('0' ≤ c ∧ c ≤ '9') ∨ c = '_')

/-- Characters additionally kept in mode 1 (MIME types / PDLs). -/
def mimeAllowed (c : Char) : Bool :=
  decide (c = '/' ∨ c = '.' ∨ c = ',')

/-- The character filter of `remove_bad_chars` for a given mode. -/
def allowedChar (mode : Nat) (c : Char) : Bool :=
  baseAllowed c || (decide (mode = 1) && mimeAllowed c)

/-- The copying loop of `remove_bad_chars`: keep allowed characters and
replace each maximal run of other characters by one `-`; the boolean is the
`havedash` flag. -/
def collapseRuns (mode : Nat) : List Char → Bool → List Char
  | [], _ => []
  | c :: rest, havedash =>
    if allowedChar mode c then c :: collapseRuns mode rest false
    else if havedash then collapseRuns mode rest true
    else '-' :: collapseRuns mode rest true

/-- The trailing-dash cut `while (str[strlen(str)-1] == '-') ...`, acting on
the REVERSED character list.  `none` models the evaluation of
`str[strlen(str)-1]` on an empty string, i.e. the read of `str[-1]` before
the start of the buffer. -/
def cutTrailingRev : List Char → Option (List Char)
  | [] => none
  | c :: cs => if c = '-' then cutTrailingRev cs else some (c :: cs)

/-- `remove_bad_chars(str_orig, mode)`.  The early `strlen(str) < 1` return
is the first branch; afterwards the collapsed string is trimmed of trailing
dashes (possibly under-running the buffer, `none`) and then of leading
dashes. -/
def remove_bad_chars (s : String) (mode : Nat) : Option String :=
  if s.length < 1 then some s
  else
    match cutTrailingRev (collapseRuns mode s.data false).reverse with
    | none => none
    | some rev => some (String.mk (rev.reverse.dropWhile (fun c => c = '-')))

/-! ### Spec-side sanitizer, for the refinement comparison -/

/-- Modelled from the spec: keep exactly the allowed characters and replace
each maximal run of any other characters by a single `-` (the dash is placed
where the run ends, which yields the same sequence). -/
def specCollapse (mode : Nat) : List Char → List Char
  | [] => []
  | c :: rest =>
    if allowedChar mode c then c :: specCollapse mode rest
    else
      match rest with
      | [] => ['-']
      | d :: _ => if allowedChar mode d then '-' :: specCollapse mode rest
                  else specCollapse mode rest

/-- Modelled from the spec: remove trailing and leading dashes. -/
def trimDashes (l : List Char) : List Char :=
  ((l.reverse.dropWhile (fun c => c = '-')).reverse).dropWhile (fun c => c = '-')

/-- Modelled from the spec: the sanitizer as described in the specification,
as a total function. -/
def specSanitize (s : String) (mode : Nat) : String :=
  String.mk (trimDashes (specCollapse mode s.data))

/-! ### Data model -/

/-- The `status` field of `remote_printer_t` (`STATUS_*` constants). -/
inductive PStatus where
  | unconfirmed
  | confirmed
  | to_be_created
  | browse_packet_received
  | disappeared
deriving DecidableEq, Repr

/-- `remote_printer_t`: one registry entry.  `timeout` is the absolute
deadline (`time_t`), with `(time_t) -1` as the "never" sentinel; `ppd`,
`model` and `ifscript` are the provisioning fields (`NULL` = `none`). -/
structure RemotePrinter where
  name : String
  uri : String
  host : String
  service_name : String
  type : String
  domain : String
  ppd : Option String
  model : Option String
  ifscript : Option String
  status : PStatus
  timeout : Int
  duplicate : Bool
deriving DecidableEq, Repr

/-- `local_printer_t` together with its hash-table key: one queue of the
local spooler mirror (`local_printers`). -/
structure LocalPrinter where
  name : String
  device_uri : String
  cups_browsed_controlled : Bool
deriving DecidableEq, Repr

/-- Oracle for everything the engine obtains from outside: the local
spooler (connection, job counts, default printer, delete/create outcomes,
`cupsGetServerPPD`), the configuration flag `CreateIPPPrinterQueues`, the
outcomes of contacting a native IPP printer and generating its PPD or
interface script, and the local spooler mirror. -/
structure Env where
  connectOk : Bool
  numJobs : String → Int
  defaultPrinter : Option String
  deleteOk : String → Bool
  createOk : String → Bool
  serverPPD : String → Option String
  CreateIPPPrinterQueues : Nat
  uriParseOk : Bool
  printerConnectOk : Bool
  ppdGenerated : Option String
  tempFdOk : Bool
  writeOk : Bool
  scriptFile : String
  local_printers : List LocalPrinter

/-- Uniqueness invariant of the spec: at most one non-duplicate entry per
(case-insensitive) queue name. -/
def uniqueNamesB : List RemotePrinter → Bool
  | [] => true
  | p :: rest =>
    (p.duplicate || rest.all (fun q => q.duplicate || !ieq p.name q.name)) &&
    uniqueNamesB rest

/-- PDL admission test of `create_local_queue` for native IPP printers:
the advertised PDL string must be present, non-empty and contain (via
`strcasestr`) one of the known page description languages. -/
def pdlOk (pdl : Option String) : Bool :=
  match pdl with
  | none => false
  | some s =>
    !s.data.isEmpty &&
    (strcasestrB s "application/postscript" || strcasestrB s "application/pdf" ||
     strcasestrB s "image/pwg-raster" || strcasestrB s "application/vnd.hp-PCL" ||
     strcasestrB s "application/vnd.hp-PCLXL")

/-- The same-name scan of `create_local_queue` (CUPS-queue branch): find the
first entry `q` with the same name; if it is neither disappeared nor
unconfirmed the NEW entry becomes the duplicate (`true`), otherwise `q`
itself is marked duplicate in place and the new entry stays primary. -/
def dupScan (name : String) : List RemotePrinter → Bool × List RemotePrinter
  | [] => (false, [])
  | q :: rest =>
    if ieq q.name name then
      if q.status ≠ .disappeared ∧ q.status ≠ .unconfirmed then (true, q :: rest)
      else (false, { q with duplicate := true } :: rest)
    else ((dupScan name rest).1, q :: (dupScan name rest).2)

/-- `create_local_queue(name, uri, host, info, type, domain, pdl,
make_model, is_cups_queue)`: returns the created entry (or `none` when the
printer is rejected or provisioning preparation fails) and the updated
registry (`cupsArrayAdd` appends).  For a CUPS queue the entry is raw and
the duplicate scan runs; for a native IPP printer the policy gates of the
`else` branch apply and either a generated PPD or an interface script is
attached, with `duplicate` left at 0. -/
def create_local_queue (env : Env) (now : Int) (reg : List RemotePrinter)
    (name uri host info type domain : String) (pdl : Option String)
    (is_cups_queue : Bool) : Option RemotePrinter × List RemotePrinter :=
  let p0 : RemotePrinter :=
    { name := name, uri := uri, host := host, service_name := info,
      type := type, domain := domain, ppd := none, model := none,
      ifscript := none, status := .to_be_created,
      timeout := now + TIMEOUT_IMMEDIATELY, duplicate := false }
  if is_cups_queue then
    let p := { p0 with duplicate := (dupScan name reg).1 }
    (some p, (dupScan name reg).2 ++ [p])
  else
    if env.CreateIPPPrinterQueues = 0 then (none, reg)
    else if !pdlOk pdl then (none, reg)
    else if !env.uriParseOk then (none, reg)
    else if !env.printerConnectOk then (none, reg)
    else
      match env.ppdGenerated with
      | some ppdfile =>
        let p := { p0 with ppd := some ppdfile }
        (some p, reg ++ [p])
      | none =>
        if !env.tempFdOk then (none, reg)
        else if !env.writeOk then (none, reg)
        else
          let p := { p0 with ifscript := some env.scriptFile }
          (some p, reg ++ [p])

/-! ### The resolver `generate_local_queue` -/

/-- Device URI assembly, modelling the `httpAssembleURIf` call of
`generate_local_queue` (scheme, host, port, `/resource`). -/
def assembleURI (scheme host : String) (port : Nat) (resource : String) : String :=
  scheme ++ "://" ++ host ++ ":" ++ toString port ++ "/" ++ resource

/-- The `.local` / `.local.` suffix strip applied to the sanitized remote
host name. -/
def stripLocalSuffix (h : String) : String :=
  if 6 < h.length ∧ ieq (strDrop h (h.length - 6)) ".local" then strTake h (h.length - 6)
  else if 7 < h.length ∧ ieq (strDrop h (h.length - 7)) ".local." then strTake h (h.length - 7)
  else h

/-- `avahi_string_list_find`: look up a TXT record entry by key
(case-insensitive). -/
def txtFind (txt : List (String × String)) (key : String) : Option (String × String) :=
  txt.find? (fun e => ieq e.1 key)

/-- The `fields[] = {"product", "usb_MDL", "ty"}` loop deriving the queue
name of a native IPP printer: the first field present with a matching key
and a value of length at least 3 wins. -/
def pickField (txt : List (String × String)) : List String → Option String
  | [] => none
  | f :: fs =>
    match txtFind txt f with
    | some (k, v) => if ieq k f ∧ 3 ≤ v.length then some v else pickField txt fs
    | none => pickField txt fs

/-- Queue name and PDL list derived from the TXT record of a native IPP
printer (`remote_queue` defaults to `"printer"`); `none` propagates an
out-of-bounds run of the sanitizer. -/
def nativeQueueName (txt : Option (List (String × String))) :
    Option (String × Option String) := do
  match txt with
  | none => some ("printer", none)
  | some t =>
    let rq ←
      match pickField t ["product", "usb_MDL", "ty"] with
      | none => some "printer"
      | some v => remove_bad_chars v 0
    let pdl ←
      match txtFind t "pdl" with
      | some (k, v) =>
        if ieq k "pdl" ∧ 3 ≤ v.length then
          match remove_bad_chars v 1 with
          | none => none
          | some p => some (some p)
        else some none
      | none => some none
    some (rq, pdl)

/-- The raw-queue test for a discovered remote CUPS queue: raw unless the
TXT record's `product` value is parenthesized; with no TXT record, raw
exactly when a non-empty domain was reported. -/
def raw_cups_queue (txt : Option (List (String × String))) (domain : String) : Bool :=
  match txt with
  | some t =>
    match txtFind t "product" with
    | some (_, v) =>
      if strTake v 1 ≠ "(" then true
      else if strDrop v (v.length - 1) ≠ ")" then true
      else false
    | none => true
  | none => domain ≠ ""

/-- `strchr(s, ':')`: the suffix of a URI from its first colon on (empty
when there is none). -/
def afterColon (s : String) : String :=
  String.mk (s.data.dropWhile (fun c => c ≠ ':'))

/-- Condition on which `generate_local_queue` reschedules a matched entry:
the discovered service allows an upgrade from `ipp:` to IPPS, or the URI
part after the scheme (`strchr(uri, ':')`) has changed. -/
def upgradeOrUriChange (p : RemotePrinter) (uri type : String) : Bool :=
  (strcasestrB type "_ipps" && ieq (strTake p.uri 4) "ipp:") ||
  !ieq (afterColon p.uri) (afterColon uri)

/-- The four trailing `if (p->field[0] == '\0')` backfills of
`generate_local_queue` on a matched entry. -/
def backfill (p : RemotePrinter) (remote_host name type domain : String) :
    RemotePrinter :=
  let p2 := if p.host = "" then { p with host := remote_host } else p
  let p3 := if p2.service_name = "" then { p2 with service_name := name } else p2
  let p4 := if p3.type = "" then { p3 with type := type } else p3
  if p4.domain = "" then { p4 with domain := domain } else p4

/-- The update applied by `generate_local_queue` to an already-registered
entry `p` (lines 1436-1495): upgrade to IPPS or follow a changed URI by
replacing the identity fields and scheduling re-creation; otherwise confirm
an unconfirmed/disappeared entry; finally backfill empty identity fields. -/
def update_matched_entry (now : Int) (p : RemotePrinter)
    (uri type name domain remote_host : String) : RemotePrinter :=
  let p1 :=
    if upgradeOrUriChange p uri type then
      { p with uri := uri, status := .to_be_created,
               timeout := now + TIMEOUT_IMMEDIATELY, host := remote_host,
               service_name := name, type := type, domain := domain }
    else if p.status = .unconfirmed ∨ p.status = .disappeared then
      { p with status := .confirmed, timeout := -1 }
    else p
  backfill p1 remote_host name type domain

/-- Registry-scan predicate of `generate_local_queue`: an entry matches the
candidate local queue name when its host is blank, its status is
unconfirmed or disappeared, or its host equals the remote host. -/
def scanMatch (local_queue_name remote_host : String) (p : RemotePrinter) : Bool :=
  ieq p.name local_queue_name &&
  (p.host == "" || decide (p.status = .unconfirmed) ||
   decide (p.status = .disappeared) || ieq p.host remote_host)

/-- Collision handling and dispatch of `generate_local_queue` after the
queue name has been derived: URI-collision check against the local spooler
mirror, fallback to `name@host`, registry scan, then either the in-place
update of the matched entry or `create_local_queue`. -/
def resolveQueue (env : Env) (now : Int) (reg : List RemotePrinter)
    (uri remote_host remote_queue : String) (pdl : Option String)
    (is_cups_queue : Bool) (name type domain : String) :
    Option RemotePrinter × List RemotePrinter :=
  let backup_queue_name := remote_queue ++ "@" ++ remote_host
  let create := !env.local_printers.any (fun lp => lp.device_uri == uri)
  let nameChoice : Option String :=
    if create then
      match env.local_printers.find? (fun lp => lp.name == remote_queue) with
      | some lp =>
        if !lp.cups_browsed_controlled then
          match env.local_printers.find? (fun lp' => lp'.name == backup_queue_name) with
          | some lp' => if !lp'.cups_browsed_controlled then none else some backup_queue_name
          | none => some backup_queue_name
        else some remote_queue
      | none => some remote_queue
    else some remote_queue
  match nameChoice with
  | none => (none, reg)
  | some local_queue_name =>
    let matched := reg.findIdx? (scanMatch local_queue_name remote_host)
    if !create then
      match matched with
      | some i => (reg[i]?, reg)
      | none => (none, reg)
    else
      match matched with
      | some i =>
        match reg[i]? with
        | some p =>
          let p' := update_matched_entry now p uri type name domain remote_host
          (some p', reg.set i p')
        | none => (none, reg)
      | none =>
        create_local_queue env now reg local_queue_name uri remote_host name
          type domain pdl is_cups_queue

/-- `generate_local_queue(host, port, resource, name, type, domain, txt)`:
derive URI, sanitized host and queue name, apply the raw-queue policy for
remote CUPS queues, then resolve collisions and update or create the
registry entry.  The outer `Option` is `none` when a sanitizer call in the
original would read out of bounds (undefined behaviour). -/
def generate_local_queue (env : Env) (now : Int) (reg : List RemotePrinter)
    (host : String) (port : Nat) (resource name type domain : String)
    (txt : Option (List (String × String))) :
    Option (Option RemotePrinter × List RemotePrinter) := do
  let uri := assembleURI (if strcasestrB type "_ipps" then "ipps" else "ipp")
    host port resource
  let rh0 ← remove_bad_chars host 1
  let remote_host := stripLocalSuffix rh0
  if ieq (strTake resource 9) "printers/" then
    let remote_queue ← remove_bad_chars (strDrop resource 9) 0
    if raw_cups_queue txt domain then some (none, reg)
    else some (resolveQueue env now reg uri remote_host remote_queue none true
      name type domain)
  else if ieq (strTake resource 8) "classes/" then
    let remote_queue ← remove_bad_chars (strDrop resource 8) 0
    some (resolveQueue env now reg uri remote_host remote_queue none true
      name type domain)
  else
    let (remote_queue, pdl) ← nativeQueueName txt
    some (resolveQueue env now reg uri remote_host remote_queue pdl false
      name type domain)

/-! ### The withdraw handler (`browse_callback`, `AVAHI_BROWSER_REMOVE`) -/

/-- Identity-triple match used to locate the withdrawn printer. -/
def tripleMatch (name type domain : String) (p : RemotePrinter) : Bool :=
  ieq p.service_name name && ieq p.type type && ieq p.domain domain

/-- Duplicate-of-`p` predicate of the failover scan: same name, different
host, marked duplicate. -/
def dupOf (p q : RemotePrinter) : Bool :=
  ieq q.name p.name && !ieq q.host p.host && q.duplicate

/-- Field transfer of the failover branch: `p`'s data is replaced by the
duplicate `q`'s data.  In the original, `p`'s provisioning pointers are
freed first and only overwritten when `q`'s are non-NULL, so an absent
field of `q` leaves `p`'s (now dangling) old value in place; the embedding
keeps the old value. -/
def promoteFrom (now : Int) (p q : RemotePrinter) : RemotePrinter :=
  { p with uri := q.uri, host := q.host, service_name := q.service_name,
           type := q.type, domain := q.domain,
           ppd := match q.ppd with | some v => some v | none => p.ppd,
           model := match q.model with | some v => some v | none => p.model,
           ifscript := match q.ifscript with | some v => some v | none => p.ifscript,
           status := .to_be_created, timeout := now + TIMEOUT_IMMEDIATELY }

/-- The `AVAHI_BROWSER_REMOVE` branch of `browse_callback`: locate the entry
by identity triple; if it is primary and a duplicate from another host
exists, move that duplicate's data into it and schedule both (re-creation
resp. removal) immediately; otherwise mark the entry disappeared with
deadline `now + TIMEOUT_REMOVE`. -/
def browse_callback_remove (now : Int) (reg : List RemotePrinter)
    (name type domain : String) : List RemotePrinter :=
  match reg.findIdx? (tripleMatch name type domain) with
  | none => reg
  | some i =>
    match reg[i]? with
    | none => reg
    | some p =>
      let qidx := if p.duplicate then none else reg.findIdx? (dupOf p)
      match qidx with
      | some j =>
        match reg[j]? with
        | none => reg
        | some q =>
          (reg.set i (promoteFrom now p q)).set j
            { q with status := .disappeared, timeout := now + TIMEOUT_IMMEDIATELY }
      | none =>
        reg.set i { p with status := .disappeared, timeout := now + TIMEOUT_REMOVE }

/-! ### The reconciliation pass `handle_cups_queues` -/

/-- Requests issued to the local spooler during a pass. -/
inductive SpoolerCall where
  | getJobs (queue : String)
  | getDefault
  | deleteQueue (queue : String)
  | createQueue (queue : String)
deriving DecidableEq, Repr

/-- Whether the queue named `n` is the system default according to the
spooler's `CUPS_GET_DEFAULT` answer (an errored or empty answer leaves
`default_printer_name` NULL). -/
def isDefault (env : Env) (n : String) : Bool :=
  match env.defaultPrinter with
  | some d => ieq d n
  | none => false

/-- The `STATUS_DISAPPEARED` branch of `handle_cups_queues` for one entry
whose status is disappeared (also reached by fall-through from
`STATUS_UNCONFIRMED`): returns the surviving entry (`none` = entry removed
from the registry) and the spooler calls made. -/
def process_disappeared (env : Env) (now : Int) (p : RemotePrinter) :
    Option RemotePrinter × List SpoolerCall :=
  if p.timeout > now then (some p, [])
  else if p.duplicate then (none, [])
  else if !env.connectOk then (some { p with timeout := now + TIMEOUT_RETRY }, [])
  else if env.numJobs p.name ≠ 0 then
    (some { p with timeout := now + TIMEOUT_RETRY }, [.getJobs p.name])
  else if isDefault env p.name then
    (some { p with timeout := now + TIMEOUT_RETRY }, [.getJobs p.name, .getDefault])
  else if !env.deleteOk p.name then
    (some { p with timeout := now + TIMEOUT_RETRY },
     [.getJobs p.name, .getDefault, .deleteQueue p.name])
  else (none, [.getJobs p.name, .getDefault, .deleteQueue p.name])

/-- The `STATUS_TO_BE_CREATED` / `STATUS_BROWSE_PACKET_RECEIVED` branch for
one entry: duplicates are never provisioned (deadline becomes the never
sentinel); otherwise, after the deadline, the create-or-modify request is
issued, consuming the PPD or interface script file, and on success the
status advances. -/
def process_create (env : Env) (now : Int) (p : RemotePrinter) :
    Option RemotePrinter × List SpoolerCall :=
  if p.duplicate then (some { p with timeout := -1 }, [])
  else if p.timeout > now then (some p, [])
  else if !env.connectOk then (some { p with timeout := now + TIMEOUT_RETRY }, [])
  else
    let p1 := match p.model with
      | some m => { p with ppd := env.serverPPD m }
      | none => p
    let p2 := match p1.ppd with
      | some _ => if p1.model.isSome then { p1 with ppd := none } else p1
      | none =>
        match p1.ifscript with
        | some _ => { p1 with ifscript := none }
        | none => p1
    if !env.createOk p.name then
      (some { p2 with timeout := now + TIMEOUT_RETRY }, [.createQueue p.name])
    else if p.status = .browse_packet_received then
      (some { p2 with status := .disappeared, timeout := now + BrowseTimeout },
       [.createQueue p.name])
    else
      (some { p2 with status := .confirmed, timeout := -1 }, [.createQueue p.name])

/-- One iteration of the `switch (p->status)` of `handle_cups_queues`.  An
unconfirmed entry whose deadline passed is marked disappeared with immediate
deadline and falls through into the disappeared case (missing `break` in the
original is intentional). -/
def process_entry (env : Env) (now : Int) (p : RemotePrinter) :
    Option RemotePrinter × List SpoolerCall :=
  match p.status with
  | .unconfirmed =>
    if p.timeout > now then (some p, [])
    else process_disappeared env now
      { p with status := .disappeared, timeout := now + TIMEOUT_IMMEDIATELY }
  | .disappeared => process_disappeared env now p
  | .to_be_created => process_create env now p
  | .browse_packet_received => process_create env now p
  | .confirmed => (some p, [])

/-- One full reconciliation pass over the registry, collecting the
surviving entries and the spooler call trace. -/
def handle_cups_queues (env : Env) (now : Int) :
    List RemotePrinter → List RemotePrinter × List SpoolerCall
  | [] => ([], [])
  | p :: rest =>
    ((process_entry env now p).1.toList ++ (handle_cups_queues env now rest).1,
     (process_entry env now p).2 ++ (handle_cups_queues env now rest).2)

/-- The shutdown sequence at the end of `main`: every entry is forced to
disappeared with immediate deadline, then one final `handle_cups_queues`
pass runs. -/
def shutdown_pass (env : Env) (now : Int) (reg : List RemotePrinter) :
    List RemotePrinter × List SpoolerCall :=
  handle_cups_queues env now
    (reg.map (fun p =>
      { p with status := .disappeared, timeout := now + TIMEOUT_IMMEDIATELY }))

/-! ### Timer recomputation (`recheck_timer`) -/

/-- The scanning loop of `recheck_timer`: `timeout` accumulates the nearest
relative deadline (`-1` = none yet); an already-expired entry forces an
immediate wakeup and stops the scan. -/
def rtLoop (now : Int) : List RemotePrinter → Int → Int
  | [], t => t
  | p :: rest, t =>
    if p.timeout = -1 then rtLoop now rest t
    else if now > p.timeout then 0
    else if t = -1 ∨ p.timeout - now < t then rtLoop now rest (p.timeout - now)
    else rtLoop now rest t

/-- `recheck_timer`: with the main loop running, the pending timer is
replaced by a single timer for the computed delay, or cleared when no entry
has a deadline; with no main loop (`gmainloop == NULL`) nothing changes.
The result is the state of the one timer slot: `some d` = armed with delay
`d`, `none` = disarmed. -/
def recheck_timer (gmainloop : Bool) (now : Int) (reg : List RemotePrinter)
    (prev : Option Int) : Option Int :=
  if !gmainloop then prev
  else if rtLoop now reg (-1) ≠ -1 then some (rtLoop now reg (-1)) else none

/-- The clamped relative deadlines of all entries with a deadline, in
registry order (specification side of the timer claim). -/
def activeDelays (now : Int) (reg : List RemotePrinter) : List Int :=
  reg.filterMap (fun p =>
    if p.timeout = -1 then none else some (max 0 (p.timeout - now)))

/-! ### Concrete fixtures used by witnesses and counterexamples -/

/-- Environment in which every external call succeeds: spooler reachable, no
jobs, no default printer, deletes and creates succeed, driverless
provisioning enabled, PPD generation succeeds. -/
def allOkEnv : Env :=
  { connectOk := true, numJobs := fun _ => 0, defaultPrinter := none,
    deleteOk := fun _ => true, createOk := fun _ => true,
    serverPPD := fun _ => none, CreateIPPPrinterQueues := 1,
    uriParseOk := true, printerConnectOk := true,
    ppdGenerated := some "/tmp/everywhere.ppd", tempFdOk := true,
    writeOk := true, scriptFile := "/tmp/ifscript", local_printers := [] }

/-- Environment whose spooler reports one active job on every queue. -/
def busyEnv : Env :=
  { allOkEnv with numJobs := fun _ => 1 }

/-- A confirmed, non-duplicate native-printer entry named `printer` reached
through `host1`. -/
def printerHost1 : RemotePrinter :=
  { name := "printer", uri := "ipp://host1:631/ipp/print", host := "host1",
    service_name := "Printer A", type := "_ipp._tcp", domain := "local",
    ppd := some "/tmp/a.ppd", model := none, ifscript := none,
    status := .confirmed, timeout := -1, duplicate := false }

/-- The entry that announcing a same-model native printer on `host2`
creates (queue name sanitized from the TXT record's `ty` field). -/
def printerHost2 : RemotePrinter :=
  { name := "Printer", uri := "ipp://host2:631/ipp/print", host := "host2",
    service_name := "Printer B", type := "_ipp._tcp", domain := "local",
    ppd := some "/tmp/everywhere.ppd", model := none, ifscript := none,
    status := .to_be_created, timeout := 999, duplicate := false }

/-- A confirmed, non-duplicate remote-CUPS-queue entry whose local queue
`office2` has been provisioned. -/
def provisionedEntry : RemotePrinter :=
  { name := "office2", uri := "ipp://h9:631/printers/office2", host := "h9",
    service_name := "Office2 @ h9", type := "_ipp._tcp", domain := "local",
    ppd := none, model := none, ifscript := none,
    status := .confirmed, timeout := -1, duplicate := false }

/-- A confirmed, non-duplicate entry with no same-name duplicate anywhere. -/
def lonelyEntry : RemotePrinter :=
  { name := "office", uri := "ipp://h1:631/printers/office", host := "h1",
    service_name := "Office", type := "_ipp._tcp", domain := "local",
    ppd := none, model := none, ifscript := none,
    status := .confirmed, timeout := -1, duplicate := false }

/-- Primary entry for the failover scenario: non-duplicate, on `hostA`. -/
def entryA : RemotePrinter :=
  { name := "lab", uri := "ipp://hostA:631/printers/lab", host := "hostA",
    service_name := "Lab @ hostA", type := "_ipp._tcp", domain := "local",
    ppd := none, model := none, ifscript := none,
    status := .confirmed, timeout := -1, duplicate := false }

/-- Backup entry for the failover scenario: duplicate of `entryA` from
`hostB`. -/
def entryB : RemotePrinter :=
  { name := "lab", uri := "ipps://hostB:631/printers/lab", host := "hostB",
    service_name := "Lab @ hostB", type := "_ipps._tcp", domain := "local",
    ppd := none, model := none, ifscript := none,
    status := .confirmed, timeout := -1, duplicate := true }

/-- A disappeared entry used to exercise the guarded-removal branch. -/
def goneEntry : RemotePrinter :=
  { name := "gone", uri := "ipp://h2:631/printers/gone", host := "h2",
    service_name := "Gone", type := "_ipp._tcp", domain := "local",
    ppd := none, model := none, ifscript := none,
    status := .disappeared, timeout := 500, duplicate := false }

/-! ## Theorems -/

/-! ### Sanitizer lemmas -/

lemma baseAllowed_dash : baseAllowed '-' = false := by decide

lemma mimeAllowed_dash : mimeAllowed '-' = false := by decide

lemma allowedChar_dash (mode : Nat) : allowedChar mode '-' = false := by
  simp [allowedChar, baseAllowed_dash, mimeAllowed_dash]

lemma allowed_ne_dash {mode : Nat} {c : Char} (h : allowedChar mode c = true) :
    c ≠ '-' := by
  intro hc
  rw [hc, allowedChar_dash] at h
  exact Bool.false_ne_true h

lemma collapseRuns_cons_allowed (mode : Nat) (c : Char) (r : List Char) (b : Bool)
    (h : allowedChar mode c = true) :
    collapseRuns mode (c :: r) b = c :: collapseRuns mode r false := by
  cases b <;> simp [collapseRuns, h]

lemma collapseRuns_cons_bad_false (mode : Nat) (c : Char) (r : List Char)
    (h : allowedChar mode c = false) :
    collapseRuns mode (c :: r) false = '-' :: collapseRuns mode r true := by
  simp [collapseRuns, h]

lemma collapseRuns_cons_bad_true (mode : Nat) (c : Char) (r : List Char)
    (h : allowedChar mode c = false) :
    collapseRuns mode (c :: r) true = collapseRuns mode r true := by
  simp [collapseRuns, h]

lemma specCollapse_cons_allowed (mode : Nat) (c : Char) (r : List Char)
    (h : allowedChar mode c = true) :
    specCollapse mode (c :: r) = c :: specCollapse mode r := by
  cases r <;> simp [specCollapse, h]

lemma specCollapse_cons_bad_nil (mode : Nat) (c : Char)
    (h : allowedChar mode c = false) :
    specCollapse mode [c] = ['-'] := by
  simp [specCollapse, h]

lemma specCollapse_cons_bad_allowed (mode : Nat) (c d : Char) (r : List Char)
    (hc : allowedChar mode c = false) (hd : allowedChar mode d = true) :
    specCollapse mode (c :: d :: r) = '-' :: specCollapse mode (d :: r) := by
  simp [specCollapse, hc, hd]

lemma specCollapse_cons_bad_bad (mode : Nat) (c d : Char) (r : List Char)
    (hc : allowedChar mode c = false) (hd : allowedChar mode d = false) :
    specCollapse mode (c :: d :: r) = specCollapse mode (d :: r) := by
  conv_lhs => rw [specCollapse]
  simp [hc, hd]

/-- The `havedash` copying loop equals the spec's run-collapsing, together
with the auxiliary fact needed inside a run of bad characters. -/
lemma collapse_spec_aux (mode : Nat) :
    ∀ n (l : List Char), l.length ≤ n →
      (collapseRuns mode l false = specCollapse mode l ∧
       ∀ c, allowedChar mode c = false →
         specCollapse mode (c :: l) = '-' :: collapseRuns mode l true) := by
  intro n
  induction n with
  | zero =>
    intro l hl
    have hnil : l = [] := List.length_eq_zero.mp (Nat.le_zero.mp hl)
    subst hnil
    refine ⟨rfl, ?_⟩
    intro c hc
    rw [specCollapse_cons_bad_nil mode c hc]
    rfl
  | succ n ih =>
    intro l hl
    match l with
    | [] =>
      refine ⟨rfl, ?_⟩
      intro c hc
      rw [specCollapse_cons_bad_nil mode c hc]
      rfl
    | d :: r =>
      have hr : r.length ≤ n := by
        have := hl
        simp only [List.length_cons] at this
        omega
      constructor
      · by_cases hd : allowedChar mode d = true
        · rw [collapseRuns_cons_allowed mode d r false hd,
            specCollapse_cons_allowed mode d r hd, (ih r hr).1]
        · rw [Bool.not_eq_true] at hd
          rw [collapseRuns_cons_bad_false mode d r hd, ((ih r hr).2 d hd).symm]
      · intro c hc
        by_cases hd : allowedChar mode d = true
        · rw [specCollapse_cons_bad_allowed mode c d r hc hd,
            collapseRuns_cons_allowed mode d r true hd,
            specCollapse_cons_allowed mode d r hd, (ih r hr).1]
        · rw [Bool.not_eq_true] at hd
          rw [specCollapse_cons_bad_bad mode c d r hc hd,
            collapseRuns_cons_bad_true mode d r hd, (ih r hr).2 d hd]

lemma collapseRuns_eq_spec (mode : Nat) (l : List Char) :
    collapseRuns mode l false = specCollapse mode l :=
  (collapse_spec_aux mode l.length l le_rfl).1

/-- Allowed characters of the input survive the collapsing loop. -/
lemma mem_collapseRuns (mode : Nat) :
    ∀ (l : List Char) (b : Bool) (c : Char), c ∈ l → allowedChar mode c = true →
      c ∈ collapseRuns mode l b := by
  intro l
  induction l with
  | nil => intro b c hc _; cases hc
  | cons d r ih =>
    intro b c hc hall
    rcases List.mem_cons.mp hc with rfl | hcr
    · simp [collapseRuns, hall]
    · by_cases hd : allowedChar mode d = true
      · simp only [collapseRuns, hd, if_true]
        exact List.mem_cons_of_mem _ (ih false c hcr hall)
      · rw [Bool.not_eq_true] at hd
        simp only [collapseRuns, hd, Bool.false_eq_true, if_false]
        cases b
        · simp only [Bool.false_eq_true, if_false]
          exact List.mem_cons_of_mem _ (ih true c hcr hall)
        · simp only [if_true]
          exact ih true c hcr hall

/-- When some character is not a dash, the trailing-dash cut terminates
without under-running the buffer and equals `dropWhile` on the reversed
list. -/
lemma cutTrailingRev_eq :
    ∀ (l : List Char), (∃ c ∈ l, c ≠ '-') →
      cutTrailingRev l = some (l.dropWhile (fun c => c = '-')) := by
  intro l
  induction l with
  | nil => intro h; rcases h with ⟨c, hc, _⟩; cases hc
  | cons c r ih =>
    intro h
    by_cases hc : c = '-'
    · subst hc
      have hr : ∃ x ∈ r, x ≠ '-' := by
        rcases h with ⟨x, hx, hne⟩
        rcases List.mem_cons.mp hx with rfl | hxr
        · exact absurd rfl hne
        · exact ⟨x, hxr, hne⟩
      rw [cutTrailingRev, if_pos rfl, ih hr]
      simp [List.dropWhile_cons]
    · rw [cutTrailingRev, if_neg hc]
      simp [List.dropWhile_cons, hc]

/-- Refinement of the sanitizer: on every input containing at least one
kept character, `remove_bad_chars` returns exactly the spec-described
sanitized string. -/
lemma remove_bad_chars_eq_spec (s : String) (mode : Nat)
    (h : ∃ c ∈ s.data, allowedChar mode c = true) :
    remove_bad_chars s mode = some (specSanitize s mode) := by
  obtain ⟨c, hc, hall⟩ := h
  have hlen : ¬ s.length < 1 := by
    have hne : s.data ≠ [] := by
      intro hd
      rw [hd] at hc
      cases hc
    have hpos : 0 < s.data.length := List.length_pos.mpr hne
    have hEq : s.length = s.data.length := rfl
    omega
  have hmem : c ∈ (collapseRuns mode s.data false).reverse :=
    List.mem_reverse.mpr (mem_collapseRuns mode s.data false c hc hall)
  have hcut := cutTrailingRev_eq (collapseRuns mode s.data false).reverse
    ⟨c, hmem, allowed_ne_dash hall⟩
  rw [remove_bad_chars, if_neg hlen, hcut]
  rw [specSanitize, trimDashes, collapseRuns_eq_spec]

/-! ### C8 and C10: sanitizer behaviour -/

/-- C8 (amended): for every input string containing at least one kept
character, the sanitizer keeps exactly the letters, digits and `_` (plus
`/`, `.`, `,` in mode 1), replaces each maximal run of other characters by
a single `-` and trims leading/trailing `-`; the three concrete examples of
the claim hold.  (On inputs with no kept character the claim fails: the
trailing-dash cut under-runs the buffer, see the counterexample.) -/
theorem C8_sanitizer_amended :
    (∀ (s : String) (mode : Nat), (∃ c ∈ s.data, allowedChar mode c = true) →
       remove_bad_chars s mode = some (specSanitize s mode)) ∧
    remove_bad_chars "HP LaserJet!! 400" 0 = some "HP-LaserJet-400" ∧
    remove_bad_chars "-weird--name-" 0 = some "weird-name" ∧
    remove_bad_chars "image/pwg-raster,application/pdf" 1 =
      some "image/pwg-raster,application/pdf" :=
  ⟨remove_bad_chars_eq_spec, by decide, by decide, by decide⟩

/-- Witness for C8 at a concrete input. -/
theorem C8_sanitizer_amended_witness :
    remove_bad_chars "abc" 0 = some (specSanitize "abc" 0) :=
  C8_sanitizer_amended.1 "abc" 0 ⟨'a', by decide, by decide⟩

/-- C8 counterexample: the claim quantifies over every input string, but on
the input `"-"` (mode 0) the original's trailing-dash cut evaluates
`str[strlen(str)-1]` on the emptied string — an out-of-bounds read modelled
as `none` — instead of returning the trimmed (empty) string. -/
theorem C8_sanitizer_cex :
    remove_bad_chars "-" 0 = none ∧
    ¬ remove_bad_chars "-" 0 = some (specSanitize "-" 0) := by decide

/-- C10: on the all-dashes input `"---"` the collapsing loop leaves a
single `-`, the trailing cut removes it, and the loop condition is then
evaluated on the empty string, reading `str[-1]` — before the start of the
buffer (embedded as `none`); the sanitizer therefore does not return the
empty string that the intended trimming (`specSanitize`) produces. -/
theorem C10_sanitizer_oob :
    remove_bad_chars "---" 0 = none ∧ specSanitize "---" 0 = "" := by decide

/-! ### C9: driverless policy rejection -/

/-- C9: an Announce for a native network printer (not a remote-spooler
queue) is silently discarded — no entry created, registry unchanged — when
the `CreateIPPPrinterQueues` flag is off, or when the advertised PDL list
is absent, empty, or contains none of PostScript, PDF, PWG Raster,
PCL 5/6/XL. -/
theorem C9_driverless_policy (env : Env) (now : Int) (reg : List RemotePrinter)
    (name uri host info type domain : String) (pdl : Option String)
    (h : env.CreateIPPPrinterQueues = 0 ∨ pdl = none ∨ pdl = some "" ∨
      ∃ s, pdl = some s ∧
        strcasestrB s "application/postscript" = false ∧
        strcasestrB s "application/pdf" = false ∧
        strcasestrB s "image/pwg-raster" = false ∧
        strcasestrB s "application/vnd.hp-PCL" = false ∧
        strcasestrB s "application/vnd.hp-PCLXL" = false) :
    create_local_queue env now reg name uri host info type domain pdl false
      = (none, reg) := by
  by_cases hf : env.CreateIPPPrinterQueues = 0
  · simp [create_local_queue, hf]
  · have hp : pdlOk pdl = false := by
      rcases h with h | h | h | ⟨s, hs, h1, h2, h3, h4, h5⟩
      · exact absurd h hf
      · rw [h]; rfl
      · rw [h]; decide
      · rw [hs]; simp [pdlOk, h1, h2, h3, h4, h5]
    simp [create_local_queue, hf, hp]

/-- Witness for C9: with the flag off, a PDF-capable native printer is
still discarded. -/
theorem C9_driverless_policy_witness :
    create_local_queue { allOkEnv with CreateIPPPrinterQueues := 0 } 1000 []
      "Printer" "ipp://host2:631/ipp/print" "host2" "Printer B" "_ipp._tcp"
      "local" (some "application/pdf") false = (none, []) :=
  C9_driverless_policy _ 1000 [] "Printer" "ipp://host2:631/ipp/print" "host2"
    "Printer B" "_ipp._tcp" "local" (some "application/pdf") (Or.inl rfl)

/-! ### C5: duplicates are never provisioned -/

lemma process_disappeared_no_create (env : Env) (now : Int) (p : RemotePrinter)
    (q : String) :
    SpoolerCall.createQueue q ∉ (process_disappeared env now p).2 := by
  intro hmem
  unfold process_disappeared at hmem
  repeat' split at hmem
  all_goals simp at hmem

lemma process_create_calls_from (env : Env) (now : Int) (p : RemotePrinter)
    (q : String)
    (h : SpoolerCall.createQueue q ∈ (process_create env now p).2) :
    p.duplicate = false ∧ p.name = q := by
  by_cases hdup : p.duplicate = true
  · simp [process_create, hdup] at h
  · rw [Bool.not_eq_true] at hdup
    refine ⟨hdup, ?_⟩
    simp only [process_create, hdup, Bool.false_eq_true, if_false] at h
    repeat' split at h
    all_goals simp_all

lemma create_calls_from (env : Env) (now : Int) (p : RemotePrinter) (q : String)
    (h : SpoolerCall.createQueue q ∈ (process_entry env now p).2) :
    p.duplicate = false ∧ p.name = q := by
  cases hst : p.status
  case unconfirmed =>
    simp only [process_entry, hst] at h
    split at h
    · simp at h
    · exact absurd h (process_disappeared_no_create env now _ q)
  case confirmed =>
    simp only [process_entry, hst] at h
    simp at h
  case disappeared =>
    simp only [process_entry, hst] at h
    exact absurd h (process_disappeared_no_create env now p q)
  case to_be_created =>
    simp only [process_entry, hst] at h
    exact process_create_calls_from env now p q h
  case browse_packet_received =>
    simp only [process_entry, hst] at h
    exact process_create_calls_from env now p q h

lemma handle_create_calls (env : Env) (now : Int) :
    ∀ (reg : List RemotePrinter) (q : String),
      SpoolerCall.createQueue q ∈ (handle_cups_queues env now reg).2 →
      ∃ p ∈ reg, p.duplicate = false ∧ p.name = q := by
  intro reg
  induction reg with
  | nil => intro q h; simp [handle_cups_queues] at h
  | cons p rest ih =>
    intro q h
    rw [show (handle_cups_queues env now (p :: rest)).2 =
        (process_entry env now p).2 ++ (handle_cups_queues env now rest).2 from rfl]
      at h
    rcases List.mem_append.mp h with h | h
    · exact ⟨p, List.mem_cons_self p rest, create_calls_from env now p q h⟩
    · obtain ⟨p', hp', hh⟩ := ih q h
      exact ⟨p', List.mem_cons_of_mem _ hp', hh⟩

/-- C5: duplicates are never provisioned.  (i) A pending-create entry
marked duplicate is handled without any spooler call and its deadline
becomes the never sentinel `-1`; (ii) every create-or-modify request of a
full reconciliation pass belongs to some non-duplicate entry of the
registry. -/
theorem C5_duplicates_never_provisioned :
    (∀ (env : Env) (now : Int) (p : RemotePrinter), p.duplicate = true →
       (p.status = .to_be_created ∨ p.status = .browse_packet_received) →
       process_entry env now p = (some { p with timeout := -1 }, [])) ∧
    (∀ (env : Env) (now : Int) (reg : List RemotePrinter) (q : String),
       SpoolerCall.createQueue q ∈ (handle_cups_queues env now reg).2 →
       ∃ p ∈ reg, p.duplicate = false ∧ p.name = q) := by
  constructor
  · intro env now p hdup hst
    rcases hst with hst | hst
    all_goals simp [process_entry, hst, process_create, hdup]
  · intro env now reg q h
    exact handle_create_calls env now reg q h

/-- Witness for C5 at a concrete duplicate entry. -/
theorem C5_duplicates_never_provisioned_witness :
    process_entry allOkEnv 1000
      { entryB with status := .to_be_created, timeout := 999 } =
    (some { entryB with status := .to_be_created, timeout := -1 }, []) :=
  C5_duplicates_never_provisioned.1 allOkEnv 1000
    { entryB with status := .to_be_created, timeout := 999 } rfl (Or.inl rfl)

/-! ### C4: guarded removal of disappeared entries -/

/-- C4: a non-duplicate disappeared entry past its deadline is not removed
while the spooler reports jobs (or errors on the job query) or while the
queue is the system default — the entry stays disappeared with deadline
`now + TIMEOUT_RETRY` and no delete request is issued; only with zero jobs
and not default is the delete issued, destroying the entry on success and
rescheduling on failure; a duplicate disappeared entry past its deadline is
removed at once with no spooler call. -/
theorem C4_guarded_removal :
    (∀ (env : Env) (now : Int) (p : RemotePrinter),
      p.status = .disappeared → p.duplicate = false → p.timeout ≤ now →
      env.connectOk = true →
      ((env.numJobs p.name ≠ 0 ∨ isDefault env p.name = true) →
        (process_entry env now p).1 = some { p with timeout := now + TIMEOUT_RETRY } ∧
        SpoolerCall.deleteQueue p.name ∉ (process_entry env now p).2) ∧
      (env.numJobs p.name = 0 → isDefault env p.name = false →
        SpoolerCall.deleteQueue p.name ∈ (process_entry env now p).2 ∧
        (env.deleteOk p.name = true → (process_entry env now p).1 = none) ∧
        (env.deleteOk p.name = false →
          (process_entry env now p).1 =
            some { p with timeout := now + TIMEOUT_RETRY }))) ∧
    (∀ (env : Env) (now : Int) (p : RemotePrinter),
      p.status = .disappeared → p.duplicate = true → p.timeout ≤ now →
      process_entry env now p = (none, [])) := by
  constructor
  · intro env now p hst hdup htime hconn
    have hnt : ¬ p.timeout > now := by omega
    constructor
    · intro hblock
      rcases hblock with hjobs | hdef
      · simp [process_entry, hst, process_disappeared, hnt, hdup, hconn, hjobs]
      · by_cases hjobs : env.numJobs p.name ≠ 0
        · simp [process_entry, hst, process_disappeared, hnt, hdup, hconn, hjobs]
        · rw [Decidable.not_not] at hjobs
          simp [process_entry, hst, process_disappeared, hnt, hdup, hconn, hjobs,
            hdef]
    · intro hjobs hdef
      by_cases hdel : env.deleteOk p.name = true
      · simp [process_entry, hst, process_disappeared, hnt, hdup, hconn, hjobs,
          hdef, hdel]
      · rw [Bool.not_eq_true] at hdel
        simp [process_entry, hst, process_disappeared, hnt, hdup, hconn, hjobs,
          hdef, hdel]
  · intro env now p hst hdup htime
    have hnt : ¬ p.timeout > now := by omega
    simp [process_entry, hst, process_disappeared, hnt, hdup]

/-- Witness for C4: with one active job the entry survives with a retry
deadline. -/
theorem C4_guarded_removal_witness :
    (process_entry busyEnv 1000 goneEntry).1 =
      some { goneEntry with timeout := 1000 + TIMEOUT_RETRY } ∧
    SpoolerCall.deleteQueue goneEntry.name ∉ (process_entry busyEnv 1000 goneEntry).2 :=
  (C4_guarded_removal.1 busyEnv 1000 goneEntry rfl rfl (by decide) rfl).1
    (Or.inl (by decide))

/-! ### C6: idempotent re-announcement -/

lemma ieq_refl (s : String) : ieq s s = true := by
  simp [ieq]

lemma backfill_uri (p : RemotePrinter) (rh n t d : String) :
    (backfill p rh n t d).uri = p.uri := by
  simp only [backfill]
  repeat' split
  all_goals rfl

lemma backfill_ppd (p : RemotePrinter) (rh n t d : String) :
    (backfill p rh n t d).ppd = p.ppd := by
  simp only [backfill]
  repeat' split
  all_goals rfl

lemma backfill_model (p : RemotePrinter) (rh n t d : String) :
    (backfill p rh n t d).model = p.model := by
  simp only [backfill]
  repeat' split
  all_goals rfl

lemma backfill_ifscript (p : RemotePrinter) (rh n t d : String) :
    (backfill p rh n t d).ifscript = p.ifscript := by
  simp only [backfill]
  repeat' split
  all_goals rfl

lemma backfill_name (p : RemotePrinter) (rh n t d : String) :
    (backfill p rh n t d).name = p.name := by
  simp only [backfill]
  repeat' split
  all_goals rfl

lemma backfill_duplicate (p : RemotePrinter) (rh n t d : String) :
    (backfill p rh n t d).duplicate = p.duplicate := by
  simp only [backfill]
  repeat' split
  all_goals rfl

lemma backfill_status (p : RemotePrinter) (rh n t d : String) :
    (backfill p rh n t d).status = p.status := by
  simp only [backfill]
  repeat' split
  all_goals rfl

lemma backfill_timeout (p : RemotePrinter) (rh n t d : String) :
    (backfill p rh n t d).timeout = p.timeout := by
  simp only [backfill]
  repeat' split
  all_goals rfl

lemma backfill_host (p : RemotePrinter) (rh n t d : String) (h : p.host ≠ "") :
    (backfill p rh n t d).host = p.host := by
  simp only [backfill]
  repeat' split
  all_goals simp_all

lemma backfill_service_name (p : RemotePrinter) (rh n t d : String)
    (h : p.service_name ≠ "") :
    (backfill p rh n t d).service_name = p.service_name := by
  simp only [backfill]
  repeat' split
  all_goals simp_all

lemma backfill_type (p : RemotePrinter) (rh n t d : String) (h : p.type ≠ "") :
    (backfill p rh n t d).type = p.type := by
  simp only [backfill]
  repeat' split
  all_goals simp_all

lemma backfill_domain (p : RemotePrinter) (rh n t d : String) (h : p.domain ≠ "") :
    (backfill p rh n t d).domain = p.domain := by
  simp only [backfill]
  repeat' split
  all_goals simp_all

/-- C6: re-announcing an unchanged printer (same URI, no unencrypted-to-
encrypted upgrade) never changes the matched entry's `uri` or provisioning
fields; an unconfirmed or disappeared entry becomes confirmed with the
never-deadline, any other status and deadline stay unchanged, and non-empty
identity fields are preserved (only empty ones may be backfilled). -/
theorem C6_idempotent_reannounce (now : Int) (p : RemotePrinter)
    (uri type name domain remote_host : String)
    (hsame : p.uri = uri)
    (hnoup : ¬ (strcasestrB type "_ipps" = true ∧ ieq (strTake p.uri 4) "ipp:" = true)) :
    (update_matched_entry now p uri type name domain remote_host).uri = p.uri ∧
    (update_matched_entry now p uri type name domain remote_host).ppd = p.ppd ∧
    (update_matched_entry now p uri type name domain remote_host).model = p.model ∧
    (update_matched_entry now p uri type name domain remote_host).ifscript = p.ifscript ∧
    (update_matched_entry now p uri type name domain remote_host).name = p.name ∧
    (update_matched_entry now p uri type name domain remote_host).duplicate = p.duplicate ∧
    ((p.status = .unconfirmed ∨ p.status = .disappeared) →
      (update_matched_entry now p uri type name domain remote_host).status = .confirmed ∧
      (update_matched_entry now p uri type name domain remote_host).timeout = -1) ∧
    (¬ (p.status = .unconfirmed ∨ p.status = .disappeared) →
      (update_matched_entry now p uri type name domain remote_host).status = p.status ∧
      (update_matched_entry now p uri type name domain remote_host).timeout = p.timeout) ∧
    (p.host ≠ "" →
      (update_matched_entry now p uri type name domain remote_host).host = p.host) ∧
    (p.service_name ≠ "" →
      (update_matched_entry now p uri type name domain remote_host).service_name
        = p.service_name) ∧
    (p.type ≠ "" →
      (update_matched_entry now p uri type name domain remote_host).type = p.type) ∧
    (p.domain ≠ "" →
      (update_matched_entry now p uri type name domain remote_host).domain = p.domain) := by
  have hcond : upgradeOrUriChange p uri type = false := by
    unfold upgradeOrUriChange
    rw [hsame, ieq_refl]
    cases hA : strcasestrB type "_ipps"
    · rfl
    · cases hB : ieq (strTake uri 4) "ipp:"
      · rfl
      · exact absurd ⟨hA, by rw [hsame]; exact hB⟩ hnoup
  by_cases hs : p.status = .unconfirmed ∨ p.status = .disappeared
  · have hr : update_matched_entry now p uri type name domain remote_host =
        backfill { p with status := .confirmed, timeout := -1 }
          remote_host name type domain := by
      unfold update_matched_entry
      rw [hcond]
      simp [hs]
    rw [hr]
    refine ⟨backfill_uri _ _ _ _ _, backfill_ppd _ _ _ _ _, backfill_model _ _ _ _ _,
      backfill_ifscript _ _ _ _ _, backfill_name _ _ _ _ _,
      backfill_duplicate _ _ _ _ _, ?_, ?_, ?_, ?_, ?_, ?_⟩
    · intro _
      exact ⟨backfill_status _ _ _ _ _, backfill_timeout _ _ _ _ _⟩
    · intro hns
      exact absurd hs hns
    · intro hh
      exact backfill_host _ _ _ _ _ hh
    · intro hh
      exact backfill_service_name _ _ _ _ _ hh
    · intro hh
      exact backfill_type _ _ _ _ _ hh
    · intro hh
      exact backfill_domain _ _ _ _ _ hh
  · have hr : update_matched_entry now p uri type name domain remote_host =
        backfill p remote_host name type domain := by
      unfold update_matched_entry
      rw [hcond]
      simp [hs]
    rw [hr]
    refine ⟨backfill_uri _ _ _ _ _, backfill_ppd _ _ _ _ _, backfill_model _ _ _ _ _,
      backfill_ifscript _ _ _ _ _, backfill_name _ _ _ _ _,
      backfill_duplicate _ _ _ _ _, ?_, ?_, ?_, ?_, ?_, ?_⟩
    · intro hyes
      exact absurd hyes hs
    · intro _
      exact ⟨backfill_status _ _ _ _ _, backfill_timeout _ _ _ _ _⟩
    · intro hh
      exact backfill_host _ _ _ _ _ hh
    · intro hh
      exact backfill_service_name _ _ _ _ _ hh
    · intro hh
      exact backfill_type _ _ _ _ _ hh
    · intro hh
      exact backfill_domain _ _ _ _ _ hh

/-- Witness for C6: re-announcing `lonelyEntry` in unconfirmed state with
its own URI confirms it with the never-deadline and keeps all its fields. -/
theorem C6_idempotent_reannounce_witness :
    (update_matched_entry 1000 { lonelyEntry with status := .unconfirmed, timeout := 1010 }
      lonelyEntry.uri "_ipp._tcp" "Office" "local" "h1").status = .confirmed ∧
    (update_matched_entry 1000 { lonelyEntry with status := .unconfirmed, timeout := 1010 }
      lonelyEntry.uri "_ipp._tcp" "Office" "local" "h1").timeout = -1 :=
  (C6_idempotent_reannounce 1000
    { lonelyEntry with status := .unconfirmed, timeout := 1010 }
    lonelyEntry.uri "_ipp._tcp" "Office" "local" "h1" rfl (by decide)).2.2.2.2.2.2.1
    (Or.inl rfl)

/-! ### C7: single-timer recomputation -/

lemma activeDelays_nonneg (now : Int) (reg : List RemotePrinter) :
    ∀ x ∈ activeDelays now reg, 0 ≤ x := by
  intro x hx
  simp only [activeDelays, List.mem_filterMap] at hx
  obtain ⟨p, _, hp⟩ := hx
  split at hp
  · cases hp
  · injection hp with h
    rw [← h]
    exact le_max_left 0 _

lemma foldl_min_zero : ∀ (l : List Int), (∀ x ∈ l, 0 ≤ x) → l.foldl min 0 = 0 := by
  intro l
  induction l with
  | nil => intro _; rfl
  | cons x r ih =>
    intro h
    have hx : 0 ≤ x := h x (List.mem_cons_self x r)
    simp only [List.foldl_cons, min_eq_left hx]
    exact ih fun y hy => h y (List.mem_cons_of_mem _ hy)

lemma foldl_min_nonneg :
    ∀ (l : List Int) (acc : Int), 0 ≤ acc → (∀ x ∈ l, 0 ≤ x) →
      0 ≤ l.foldl min acc := by
  intro l
  induction l with
  | nil => intro acc hacc _; exact hacc
  | cons x r ih =>
    intro acc hacc h
    simp only [List.foldl_cons]
    exact ih _ (le_min hacc (h x (List.mem_cons_self x r)))
      fun y hy => h y (List.mem_cons_of_mem _ hy)

lemma rtLoop_acc (now : Int) :
    ∀ (reg : List RemotePrinter) (t : Int), 0 ≤ t →
      rtLoop now reg t = (activeDelays now reg).foldl min t := by
  intro reg
  induction reg with
  | nil => intro t _; rfl
  | cons p r ih =>
    intro t ht
    by_cases hn : p.timeout = -1
    · simp only [rtLoop, hn, if_pos, activeDelays, List.filterMap_cons, if_true]
      exact ih t ht
    · by_cases hlt : now > p.timeout
      · have hle : p.timeout - now ≤ 0 := by omega
        simp only [rtLoop, hn, if_false, hlt, if_pos, activeDelays,
          List.filterMap_cons, if_neg hn, max_eq_left hle, List.foldl_cons,
          min_eq_right (le_of_eq rfl)]
        rw [min_eq_right]
        · exact (foldl_min_zero _ (activeDelays_nonneg now r)).symm
        · exact ht
      · have hge : 0 ≤ p.timeout - now := by omega
        have hne : ¬ t = -1 := by omega
        simp only [rtLoop, hn, if_false, hlt, activeDelays, List.filterMap_cons,
          if_neg hn, max_eq_right hge, List.foldl_cons]
        by_cases hcmp : p.timeout - now < t
        · rw [if_pos (Or.inr hcmp), ih _ hge, min_eq_right (le_of_lt hcmp)]
          rfl
        · have hno : ¬ (t = -1 ∨ p.timeout - now < t) := by
            intro hc
            rcases hc with hc | hc
            · exact hne hc
            · exact hcmp hc
          rw [if_neg hno, ih t ht, min_eq_left (by omega)]
          rfl

lemma rtLoop_start (now : Int) (reg : List RemotePrinter) :
    rtLoop now reg (-1) =
      match activeDelays now reg with
      | [] => -1
      | d :: ds => ds.foldl min d := by
  induction reg with
  | nil => rfl
  | cons p r ih =>
    by_cases hn : p.timeout = -1
    · simp only [rtLoop, hn, if_pos, activeDelays, List.filterMap_cons, if_true]
      exact ih
    · by_cases hlt : now > p.timeout
      · have hle : p.timeout - now ≤ 0 := by omega
        simp only [rtLoop, hn, if_false, hlt, if_pos, activeDelays,
          List.filterMap_cons, if_neg hn, max_eq_left hle]
        exact (foldl_min_zero _ (activeDelays_nonneg now r)).symm
      · have hge : 0 ≤ p.timeout - now := by omega
        simp only [rtLoop, hn, if_false, hlt, activeDelays, List.filterMap_cons,
          if_neg hn, max_eq_right hge, true_or, if_true]
        exact rtLoop_acc now r _ hge

/-- C7: with the main loop running, `recheck_timer` leaves exactly one timer
whose delay is the minimum over all registry entries with a deadline of
`max 0 (deadline - now)`, and leaves no timer pending when every entry's
deadline is the never sentinel or the registry is empty (`List.min?` of the
empty delay list is `none`). -/
theorem C7_single_timer (now : Int) (reg : List RemotePrinter) (prev : Option Int) :
    recheck_timer true now reg prev = (activeDelays now reg).min? := by
  rw [recheck_timer]
  simp only [Bool.not_true, Bool.false_eq_true, if_false]
  rw [rtLoop_start]
  cases hA : activeDelays now reg with
  | nil => simp
  | cons d ds =>
    have hd : 0 ≤ d := activeDelays_nonneg now reg d (by
      rw [hA]; exact List.mem_cons_self d ds)
    have hds : ∀ x ∈ ds, 0 ≤ x := fun x hx =>
      activeDelays_nonneg now reg x (by rw [hA]; exact List.mem_cons_of_mem d hx)
    have hnn : 0 ≤ ds.foldl min d := foldl_min_nonneg ds d hd hds
    have hred : (match (d :: ds : List Int) with
        | [] => (-1 : Int)
        | d :: ds => ds.foldl min d) = ds.foldl min d := rfl
    rw [hred, if_pos (by omega)]
    rfl

/-! ### C1: registry uniqueness -/

lemma dupScan_of_precond (name : String) :
    ∀ (reg : List RemotePrinter),
      (∀ q ∈ reg, ieq q.name name = true →
        q.status ≠ .unconfirmed ∧ q.status ≠ .disappeared) →
      (dupScan name reg).2 = reg ∧
      ((dupScan name reg).1 = true ∨ ∀ q ∈ reg, ieq q.name name = false) := by
  intro reg
  induction reg with
  | nil =>
    intro _
    exact ⟨rfl, Or.inr (by intro q hq; cases hq)⟩
  | cons q rest ih =>
    intro h
    by_cases hq : ieq q.name name = true
    · have hact := h q (List.mem_cons_self q rest) hq
      have hcond : q.status ≠ .disappeared ∧ q.status ≠ .unconfirmed :=
        ⟨hact.2, hact.1⟩
      refine ⟨?_, Or.inl ?_⟩ <;> simp [dupScan, hq, if_pos hcond]
    · have hrest := ih fun r hr => h r (List.mem_cons_of_mem _ hr)
      simp only [dupScan, hq, Bool.false_eq_true, if_false]
      refine ⟨by rw [hrest.1], ?_⟩
      rcases hrest.2 with hb | hall
      · exact Or.inl hb
      · refine Or.inr ?_
        intro r hr
        rcases List.mem_cons.mp hr with rfl | hr
        · rw [Bool.not_eq_true] at hq
          exact hq
        · exact hall r hr

lemma uniqueNamesB_append_of (x : RemotePrinter) :
    ∀ (l : List RemotePrinter),
      uniqueNamesB l = true →
      (∀ q ∈ l, q.duplicate = true ∨ x.duplicate = true ∨ ieq q.name x.name = false) →
      uniqueNamesB (l ++ [x]) = true := by
  intro l
  induction l with
  | nil =>
    intro _ _
    simp [uniqueNamesB]
  | cons p l ih =>
    intro hl hx
    rw [uniqueNamesB, Bool.and_eq_true] at hl
    rw [List.cons_append, uniqueNamesB, Bool.and_eq_true]
    refine ⟨?_, ih hl.2 fun q hq => hx q (List.mem_cons_of_mem _ hq)⟩
    cases hpd : p.duplicate
    · have hall : l.all (fun q => q.duplicate || !ieq p.name q.name) = true := by
        rcases (Bool.or_eq_true _ _).mp hl.1 with hd | hall
        · rw [hpd] at hd
          cases hd
        · exact hall
      have hfx : (x.duplicate || !ieq p.name x.name) = true := by
        rcases hx p (List.mem_cons_self p l) with hp | hx1 | hn
        · rw [hpd] at hp
          cases hp
        · rw [hx1]
          rfl
        · rw [hn]
          simp
      rw [Bool.or_eq_true]
      right
      rw [List.all_append, Bool.and_eq_true]
      refine ⟨hall, ?_⟩
      rw [List.all_cons, hfx]
      rfl
    · rw [Bool.or_eq_true]
      exact Or.inl rfl

/-- C1 (amended): inserting a CUPS-originated printer into a registry that
satisfies uniqueness, in the state in which the resolver performs the insert
(no same-name entry is unconfirmed or disappeared), preserves uniqueness by
marking either the new entry or the pre-existing same-name entry duplicate;
inserting a native network printer performs NO same-name check and always
produces an entry with `isDuplicate = false` (so such an insert can violate
uniqueness, see the counterexample). -/
theorem C1_uniqueness_amended :
    (∀ (env : Env) (now : Int) (reg : List RemotePrinter)
       (name uri host info type domain : String) (pdl : Option String),
       uniqueNamesB reg = true →
       (∀ q ∈ reg, ieq q.name name = true →
          q.status ≠ .unconfirmed ∧ q.status ≠ .disappeared) →
       uniqueNamesB
         (create_local_queue env now reg name uri host info type domain pdl true).2
         = true) ∧
    (∀ (env : Env) (now : Int) (reg : List RemotePrinter)
       (name uri host info type domain : String) (pdl : Option String)
       (p : RemotePrinter),
       (create_local_queue env now reg name uri host info type domain pdl false).1
         = some p →
       p.duplicate = false) := by
  constructor
  · intro env now reg name uri host info type domain pdl huniq hpre
    obtain ⟨h2, h1⟩ := dupScan_of_precond name reg hpre
    simp only [create_local_queue, if_true]
    rw [h2]
    refine uniqueNamesB_append_of _ reg huniq ?_
    intro q hq
    rcases h1 with hb | hall
    · exact Or.inr (Or.inl hb)
    · exact Or.inr (Or.inr (hall q hq))
  · intro env now reg name uri host info type domain pdl p h
    simp only [create_local_queue, Bool.false_eq_true, if_false] at h
    repeat' split at h
    all_goals simp_all
    all_goals rw [← h]

/-- Witness for C1 (amended) at a concrete CUPS-queue insert. -/
theorem C1_uniqueness_amended_witness :
    uniqueNamesB (create_local_queue allOkEnv 1000 [] "office"
      "ipp://h:631/printers/office" "h" "Office" "_ipp._tcp" "local" none
      true).2 = true :=
  C1_uniqueness_amended.1 allOkEnv 1000 [] "office" "ipp://h:631/printers/office"
    "h" "Office" "_ipp._tcp" "local" none (by decide)
    (by intro q hq; cases hq)

/-- C1 counterexample: announcing a second native IPP printer of the same
model (sanitized queue name `Printer` ~ `printer`, case-insensitively
equal) from a different host inserts a second non-duplicate entry with the
same queue name: the insert path for native printers does not preserve the
uniqueness invariant. -/
theorem C1_uniqueness_cex :
    uniqueNamesB [printerHost1] = true ∧
    generate_local_queue allOkEnv 1000 [printerHost1] "host2" 631 "ipp/print"
      "Printer B" "_ipp._tcp" "local"
      (some [("ty", "Printer"), ("pdl", "application/pdf")]) =
      some (some printerHost2, [printerHost1, printerHost2]) ∧
    uniqueNamesB [printerHost1, printerHost2] = false := by
  refine ⟨by decide, by decide, by decide⟩

/-! ### C2: deduplication failover on withdraw -/

/-- C2 (amended): withdrawing the primary entry A while a duplicate B from
another host exists moves B's uri/host/identity/provisioning data into A,
schedules A for immediate re-creation (`PendingCreate`) and marks B
disappeared with immediate deadline; with no duplicate, A is marked
disappeared with deadline `now + TIMEOUT_REMOVE` — which in this source is
`-1`, i.e. the very same immediate deadline, not a grace period. -/
theorem C2_withdraw_failover (now : Int) (reg : List RemotePrinter)
    (name type domain : String) (i : Nat) (A : RemotePrinter)
    (hfind : reg.findIdx? (tripleMatch name type domain) = some i)
    (hA : reg[i]? = some A) (hAdup : A.duplicate = false) :
    (∀ (j : Nat) (B : RemotePrinter),
       reg.findIdx? (dupOf A) = some j → reg[j]? = some B →
       ieq B.host A.host = false →
       (browse_callback_remove now reg name type domain)[i]? =
         some (promoteFrom now A B) ∧
       (browse_callback_remove now reg name type domain)[j]? =
         some { B with status := .disappeared,
                       timeout := now + TIMEOUT_IMMEDIATELY } ∧
       (promoteFrom now A B).uri = B.uri ∧
       (promoteFrom now A B).host = B.host ∧
       (promoteFrom now A B).service_name = B.service_name ∧
       (promoteFrom now A B).type = B.type ∧
       (promoteFrom now A B).domain = B.domain ∧
       (promoteFrom now A B).name = A.name ∧
       (promoteFrom now A B).duplicate = false ∧
       (promoteFrom now A B).status = .to_be_created ∧
       (promoteFrom now A B).timeout = now + TIMEOUT_IMMEDIATELY) ∧
    (reg.findIdx? (dupOf A) = none →
       browse_callback_remove now reg name type domain =
         reg.set i { A with status := .disappeared,
                            timeout := now + TIMEOUT_REMOVE } ∧
       now + TIMEOUT_REMOVE = now + TIMEOUT_IMMEDIATELY) := by
  constructor
  · intro j B hfq hB hBh
    have hij : i ≠ j := by
      intro hEq
      subst hEq
      rw [hA] at hB
      injection hB with hAB
      subst hAB
      rw [ieq_refl] at hBh
      cases hBh
    have hilen : i < reg.length := (List.getElem?_eq_some.mp hA).1
    have hjlen : j < reg.length := (List.getElem?_eq_some.mp hB).1
    have hres : browse_callback_remove now reg name type domain =
        (reg.set i (promoteFrom now A B)).set j
          { B with status := .disappeared,
                   timeout := now + TIMEOUT_IMMEDIATELY } := by
      unfold browse_callback_remove
      rw [hfind]
      simp only [hA, hAdup, Bool.false_eq_true, if_false, hfq, hB]
    rw [hres]
    refine ⟨?_, ?_, rfl, rfl, rfl, rfl, rfl, rfl, hAdup, rfl, rfl⟩
    · rw [List.getElem?_set_ne (Ne.symm hij), List.getElem?_set_self hilen]
    · rw [List.getElem?_set_self]
      rw [List.length_set]
      exact hjlen
  · intro hfq
    refine ⟨?_, rfl⟩
    unfold browse_callback_remove
    rw [hfind]
    simp only [hA, hAdup, Bool.false_eq_true, if_false, hfq]

/-- Witness for C2: withdrawing `entryA` with duplicate `entryB` present
promotes B's data into A's slot. -/
theorem C2_withdraw_failover_witness :
    (browse_callback_remove 1000 [entryA, entryB] "Lab @ hostA" "_ipp._tcp"
      "local")[0]? = some (promoteFrom 1000 entryA entryB) :=
  ((C2_withdraw_failover 1000 [entryA, entryB] "Lab @ hostA" "_ipp._tcp" "local"
    0 entryA (by decide) (by decide) rfl).1 1 entryB (by decide) (by decide)
    (by decide)).1

/-- C2 counterexample: withdrawing an entry with no duplicate sets deadline
`now + TIMEOUT_REMOVE = now - 1`: the "grace-period deadline" of the claim
does not exist — it is the already-expired immediate deadline. -/
theorem C2_withdraw_cex :
    browse_callback_remove 1000 [lonelyEntry] "Office" "_ipp._tcp" "local" =
      [{ lonelyEntry with status := .disappeared, timeout := 999 }] ∧
    (999 : Int) = 1000 + TIMEOUT_REMOVE ∧
    (999 : Int) = 1000 + TIMEOUT_IMMEDIATELY ∧
    (999 : Int) < 1000 := by
  refine ⟨by decide, by decide, by decide, by decide⟩

/-! ### C3: shutdown cleanup -/

/-- C3 counterexample: on shutdown with one active job reported for the
provisioned queue `office2`, the final pass issues no delete, leaves the
entry in the registry with a retry deadline that will never fire, and the
queue survives the exit — the claim's "regardless of active jobs" fails. -/
theorem C3_shutdown_cex :
    shutdown_pass busyEnv 1000 [provisionedEntry] =
      ([{ provisionedEntry with status := .disappeared, timeout := 1010 }],
       [SpoolerCall.getJobs "office2"]) ∧
    (shutdown_pass busyEnv 1000 [provisionedEntry]).1 ≠ [] ∧
    SpoolerCall.deleteQueue "office2" ∉
      (shutdown_pass busyEnv 1000 [provisionedEntry]).2 := by
  refine ⟨by decide, by decide, by decide⟩

lemma shutdown_entry_step (env : Env) (now : Int) (p : RemotePrinter)
    (hconn : env.connectOk = true) (hjobs : env.numJobs p.name = 0)
    (hdef : isDefault env p.name = false) (hdel : env.deleteOk p.name = true) :
    process_entry env now
      { p with status := .disappeared, timeout := now + TIMEOUT_IMMEDIATELY } =
    (none,
     if p.duplicate then []
     else [.getJobs p.name, .getDefault, .deleteQueue p.name]) := by
  have hnt : ¬ (now + TIMEOUT_IMMEDIATELY > now) := by
    rw [TIMEOUT_IMMEDIATELY]
    omega
  cases hdup : p.duplicate
  · simp [process_entry, process_disappeared, hnt, hdup, hconn, hjobs, hdef, hdel]
  · simp [process_entry, process_disappeared, hnt, hdup]

/-- C3 (amended): shutdown forces every entry to disappeared with immediate
deadline and runs one final pass; PROVIDED the spooler is reachable,
reports no active jobs, none of the queues is the system default, and
every delete succeeds, the registry is emptied and a delete request is
issued for every non-duplicate entry's queue.  (When a guard fails the
queue survives the exit, see the counterexample.) -/
theorem C3_shutdown_amended (env : Env) (now : Int) (reg : List RemotePrinter)
    (hconn : env.connectOk = true)
    (hjobs : ∀ p ∈ reg, env.numJobs p.name = 0)
    (hdef : ∀ p ∈ reg, isDefault env p.name = false)
    (hdel : ∀ p ∈ reg, env.deleteOk p.name = true) :
    (shutdown_pass env now reg).1 = [] ∧
    ∀ p ∈ reg, p.duplicate = false →
      SpoolerCall.deleteQueue p.name ∈ (shutdown_pass env now reg).2 := by
  induction reg with
  | nil =>
    exact ⟨rfl, by intro p hp; cases hp⟩
  | cons p rest ih =>
    obtain ⟨ih1, ih2⟩ := ih
      (fun q hq => hjobs q (List.mem_cons_of_mem _ hq))
      (fun q hq => hdef q (List.mem_cons_of_mem _ hq))
      (fun q hq => hdel q (List.mem_cons_of_mem _ hq))
    have hstep := shutdown_entry_step env now p hconn
      (hjobs p (List.mem_cons_self p rest))
      (hdef p (List.mem_cons_self p rest))
      (hdel p (List.mem_cons_self p rest))
    have hsp : shutdown_pass env now (p :: rest) =
        ((process_entry env now
            { p with status := .disappeared,
                     timeout := now + TIMEOUT_IMMEDIATELY }).1.toList ++
          (shutdown_pass env now rest).1,
         (process_entry env now
            { p with status := .disappeared,
                     timeout := now + TIMEOUT_IMMEDIATELY }).2 ++
          (shutdown_pass env now rest).2) := rfl
    rw [hsp, hstep]
    constructor
    · simpa using ih1
    · intro q hq hqd
      rcases List.mem_cons.mp hq with rfl | hq
      · rw [hqd]
        simp
      · exact List.mem_append_right _ (ih2 q hq hqd)

/-- Witness for C3 (amended): with every guard passing, the registry is
empty after the shutdown pass. -/
theorem C3_shutdown_amended_witness :
    (shutdown_pass allOkEnv 1000 [provisionedEntry]).1 = [] :=
  (C3_shutdown_amended allOkEnv 1000 [provisionedEntry] rfl (by decide)
    (by decide) (by decide)).1

end CupsBrowsed
